import Mathlib

/-!
Verification of the cabase legal-search retrieval pipelines.

The repository implements several variants of the search route:

* `part_000`: fused semantic + keyword retrieval with a keyword-presence
  boost, sort by boosted similarity, first-occurrence dedup by id, top-10;
* `part_001`: semantic (Qdrant) + keyword retrieval, dedup by id, AI rerank
  with a 4/10 relevance cutoff and a combined sort key, top-10;
* `part_002`: basic semantic retrieval with a one-keyword lexical fallback;
* `part_003`: query analysis/decomposition, multi-query semantic fusion with
  agreement boosts, keyword fusion, uncapped multi-match boost, sort, and
  diversity-capped top-10 selection.

Modelling conventions: JavaScript numbers carrying scores are modelled as
exact rationals (`ℚ`); row ids as `Int`.  External services (embedding,
vector store, lexical store, language model) are modelled as oracle
parameters of the pipeline functions; `none` (or `[]` where the code maps a
failure to an empty list) stands for a failed call, matching the code's
catch-and-degrade wrappers.  Provenance metadata fields that the fusion logic
never reads (case_name, neutral_citation, court, decision_date, section_type,
hklii_id) are omitted from the candidate structures; the code copies them
through unchanged at every stage.  String operations are modelled over
`String.data` with structural recursion so that concrete instances evaluate;
`Char.toLower` matches JavaScript `toLowerCase` on the ASCII queries the
system handles.
-/

/-- Does `hay` begin with `need`?  Helper for the substring test. -/
def startsWithCh : List Char → List Char → Bool
  | _, [] => true
  | [], _ :: _ => false
  | a :: as, b :: bs => a == b && startsWithCh as bs

/-- Substring occurrence test on character lists. -/
def containsCh : List Char → List Char → Bool
  | [], need => need.isEmpty
  | c :: cs, need => startsWithCh (c :: cs) need || containsCh cs need

/-- JavaScript `s.includes(sub)`. -/
def strIncludes (s sub : String) : Bool := containsCh s.data sub.data

/-- Split a character list at every separator character, keeping empty pieces
(JavaScript `String.prototype.split` with a single-character separator). -/
def splitChAux (p : Char → Bool) : List Char → List Char → List String
  | [], acc => [String.mk acc.reverse]
  | c :: cs, acc =>
      if p c then String.mk acc.reverse :: splitChAux p cs []
      else splitChAux p cs (c :: acc)

/-- Split a string at every character satisfying `p`. -/
def splitCh (p : Char → Bool) (s : String) : List String := splitChAux p s.data []

/-- JavaScript `s.toLowerCase()` (ASCII range). -/
def strToLower (s : String) : String := String.mk (s.data.map Char.toLower)

/-- `query.toLowerCase().split(/\s+/)`.  Splitting at every whitespace
character yields extra empty tokens at whitespace runs where the regex merges
them; every consumer filters tokens through a length bound or a vocabulary
membership test, which no empty token passes, so the difference is
unobservable. -/
def jsWords (s : String) : List String :=
  splitCh (fun c => c.isWhitespace) (strToLower s)

/-- Which retrieval path produced a candidate (`source` field). -/
inductive Source where
  | semantic
  | keyword
deriving DecidableEq

/-- Raw row returned by the semantic (vector) retriever, carrying its
similarity score. -/
structure SemRaw where
  id : Int
  case_id : Int
  chunk_text : String
  similarity : ℚ
deriving DecidableEq

/-- Raw row returned by the lexical (keyword) retriever; the pipelines assign
it a fixed baseline score on insertion. -/
structure KwRaw where
  id : Int
  case_id : Int
  chunk_text : String
deriving DecidableEq

/-! ### part_000: fused semantic + keyword pipeline -/

/-- Candidate row of the part_000 route (`SearchResult` plus the fields the
fusion attaches). -/
structure R000 where
  id : Int
  case_id : Int
  chunk_text : String
  similarity : ℚ
  source : Source
  keywordMatches : Nat := 0
deriving DecidableEq

/-- Stop-word list of part_000. -/
def stopwords000 : List String :=
  ["from", "with", "that", "this", "have", "been", "were", "what", "when", "where"]

/-- part_000 keyword extraction: lower-cased words longer than 3 characters
minus stop-words. -/
def keywords000 (query : String) : List String :=
  ((jsWords query).filter (fun w => 3 < w.length)).filter
    (fun w => !(stopwords000.contains w))

/-- Tag a semantic row with its source. -/
def toSem000 (r : SemRaw) : R000 :=
  { id := r.id, case_id := r.case_id, chunk_text := r.chunk_text,
    similarity := r.similarity, source := Source.semantic }

/-- part_000 step 2 merge: when a keyword hit re-observes an id already
present and the existing entry itself came from the keyword path, its score is
bumped to min(0.9, score + 0.1); the first matching entry is updated. -/
def bumpKw000 : List R000 → Int → List R000
  | [], _ => []
  | r :: rs, i =>
      if r.id = i then
        (if r.source = Source.keyword then
          { r with similarity := min (9/10) (r.similarity + 1/10) }
        else r) :: rs
      else r :: bumpKw000 rs i

/-- part_000 step 2: insert one keyword row (baseline score 0.6) or bump a
duplicate. -/
def addKw000 (acc : List R000) (k : KwRaw) : List R000 :=
  if acc.any (fun r => r.id == k.id) then bumpKw000 acc k.id
  else acc ++ [{ id := k.id, case_id := k.case_id, chunk_text := k.chunk_text,
                 similarity := 6/10, source := Source.keyword }]

/-- part_000 step 2: run the keyword search for the first five keywords; a
failed call (`none`) contributes nothing. -/
def keywordStep000 (kwOracle : String → Option (List KwRaw))
    (kws : List String) (acc : List R000) : List R000 :=
  (kws.take 5).foldl
    (fun acc kw =>
      match kwOracle kw with
      | none => acc
      | some krs => krs.foldl addKw000 acc) acc

/-- part_000 step 3: how many of the query keywords occur (case-insensitively)
in the candidate text. -/
def matchCount000 (kws : List String) (r : R000) : Nat :=
  (kws.filter (fun kw => strIncludes (strToLower r.chunk_text) kw)).length

/-- part_000 step 3 keyword-presence boost:
`similarity = min(0.99, similarity * (matches > 0 ? 1 + matches * 0.15 : 1))`. -/
def boostOne000 (kws : List String) (r : R000) : R000 :=
  let m := matchCount000 kws r
  let boost : ℚ := if 0 < m then 1 + (m : ℚ) * (15/100) else 1
  { r with similarity := min (99/100) (r.similarity * boost), keywordMatches := m }

/-- Sort descending by similarity (`(a, b) => b.similarity - a.similarity`). -/
def sortBySim000 (rs : List R000) : List R000 :=
  rs.mergeSort (fun a b => decide (b.similarity ≤ a.similarity))

/-- First-occurrence dedup by key with an accumulated seen-set
(`const seen = new Set(); filter(...)`). -/
def dedupGo {α : Type} (key : α → Int) (seen : List Int) : List α → List α
  | [] => []
  | r :: rs =>
      if key r ∈ seen then dedupGo key seen rs
      else r :: dedupGo key (key r :: seen) rs

/-- First-occurrence dedup by key. -/
def dedupById {α : Type} (key : α → Int) (rs : List α) : List α := dedupGo key [] rs

/-- part_000 fused pipeline: semantic signal, keyword merges, keyword-presence
boost, sort, dedup by id, top-10. -/
def pipeline000 (query : String) (semantic : Option (List SemRaw))
    (kwOracle : String → Option (List KwRaw)) : List R000 :=
  let kws := keywords000 query
  let all0 := match semantic with | none => [] | some rs => rs.map toSem000
  let all1 := keywordStep000 kwOracle kws all0
  let all2 := all1.map (boostOne000 kws)
  let all3 := dedupById (fun r => r.id) (sortBySim000 all2)
  all3.take 10

/-- Deterministic no-result guidance text of part_000. -/
def noResultsText000 (query : String) : String :=
  "No relevant cases found for \"" ++ query ++
  "\".\n\nThis could mean:\n1. The database doesn\x27t contain cases on this topic yet\n2. Try different search terms (e.g., \"personal injury\" instead of specific injuries)\n3. Try broader legal concepts (e.g., \"negligence\", \"damages\", \"compensation\")"

/-- Answer field of a part_000 response: generated analysis text, or the
deterministic guidance text when no results were found. -/
inductive Answer000 where
  | analysis (text : String)
  | guidance (text : String)
deriving DecidableEq

/-- part_000 response shape on a valid query. -/
structure Response000 where
  status : Nat
  results : List R000
  aiAnswer : Answer000
deriving DecidableEq

/-- part_000 request handler on a valid query; `llm` is the external analysis
text used when results are non-empty.  Signal failures are caught inside the
handler, so the outer 500 branch is unreachable from them. -/
def response000 (query : String) (semantic : Option (List SemRaw))
    (kwOracle : String → Option (List KwRaw)) (llm : String) : Response000 :=
  let finalResults := pipeline000 query semantic kwOracle
  { status := 200
    results := finalResults
    aiAnswer :=
      if 0 < finalResults.length then Answer000.analysis llm
      else Answer000.guidance (noResultsText000 query) }

/-! ### part_001: semantic + keyword pipeline with AI rerank -/

/-- Candidate row of the part_001 route (`SearchResult` with the optional
`relevanceScore` the rerank attaches). -/
structure R001 where
  id : Int
  case_id : Int
  chunk_text : String
  similarity : ℚ
  relevanceScore : Option Nat := none
  source : Source
deriving DecidableEq

/-- Stop-word list of part_001 (part_000's list plus "cases"). -/
def stopwords001 : List String :=
  ["from", "with", "that", "this", "have", "been", "were", "what", "when",
   "where", "cases"]

/-- part_001 keyword extraction. -/
def keywords001 (query : String) : List String :=
  ((jsWords query).filter (fun w => 3 < w.length)).filter
    (fun w => !(stopwords001.contains w))

/-- Tag a semantic row with its source. -/
def toSem001 (r : SemRaw) : R001 :=
  { id := r.id, case_id := r.case_id, chunk_text := r.chunk_text,
    similarity := r.similarity, source := Source.semantic }

/-- part_001 step 2: push a keyword row (baseline 0.5) only when its id is
new. -/
def addKw001 (acc : List R001) (k : KwRaw) : List R001 :=
  if acc.any (fun r => r.id == k.id) then acc
  else acc ++ [{ id := k.id, case_id := k.case_id, chunk_text := k.chunk_text,
                 similarity := 1/2, source := Source.keyword }]

/-- part_001 step 2: keyword search over the first four keywords; a failed
call contributes nothing. -/
def keywordStep001 (kwOracle : String → Option (List KwRaw))
    (kws : List String) (acc : List R001) : List R001 :=
  (kws.take 4).foldl
    (fun acc kw =>
      match kwOracle kw with
      | none => acc
      | some krs => krs.foldl addKw001 acc) acc

/-- `scores[i] ?? 5`: the parsed relevance score for index `i`, defaulting to
5 when the parsed array has no entry there. -/
def scoreAt (scores : List Nat) (i : Nat) : Nat := scores.getD i 5

/-- rerankWithAI success path, one candidate: attach the relevance score and
boost similarity by `1 + score / 20`. -/
def scoreOne (scores : List Nat) (i : Nat) (r : R001) : R001 :=
  { r with relevanceScore := some (scoreAt scores i),
           similarity := r.similarity * (1 + (scoreAt scores i : ℚ) / 20) }

/-- rerankWithAI success path: `results.map((r, i) => ...)` with the running
index made explicit. -/
def applyScoresFrom (scores : List Nat) (i : Nat) : List R001 → List R001
  | [] => []
  | r :: rs => scoreOne scores i r :: applyScoresFrom scores (i + 1) rs

/-- rerankWithAI success path over the whole list. -/
def applyScores (scores : List Nat) (rs : List R001) : List R001 :=
  applyScoresFrom scores 0 rs

/-- rerankWithAI combined sort key:
`(relevanceScore ?? 5) * 0.7 + similarity * 10 * 0.3`. -/
def combinedScore (r : R001) : ℚ :=
  ((r.relevanceScore.getD 5 : ℚ)) * (7/10) + r.similarity * 10 * (3/10)

/-- Sort descending by similarity. -/
def sortBySim001 (rs : List R001) : List R001 :=
  rs.mergeSort (fun a b => decide (b.similarity ≤ a.similarity))

/-- Sort descending by the combined key. -/
def sortByCombined (rs : List R001) : List R001 :=
  rs.mergeSort (fun a b => decide (combinedScore b ≤ combinedScore a))

/-- part_001 rerankWithAI.  `parsed` is the numeric array extracted from the
language-model response: `none` when the call failed, the response was not ok,
or no bracketed numeric array could be matched; `some scores` when the regex
matched and JSON-parsed.  On success: attach scores, drop candidates scoring
below 4, sort by the combined key.  On failure: return the input sorted by
similarity. -/
def rerankWithAI (parsed : Option (List Nat)) (results : List R001) : List R001 :=
  match parsed with
  | some scores =>
      let scoredResults := applyScores scores results
      let filtered := scoredResults.filter (fun r => decide (4 ≤ r.relevanceScore.getD 5))
      sortByCombined filtered
  | none => sortBySim001 results

/-- part_001 request pipeline: semantic signal, keyword pushes, dedup by id,
AI rerank over the first 15, top-10. -/
def pipeline001 (query : String) (semantic : Option (List SemRaw))
    (kwOracle : String → Option (List KwRaw)) (parsed : Option (List Nat)) :
    List R001 :=
  let all0 := match semantic with | none => [] | some rs => rs.map toSem001
  let all1 := keywordStep001 kwOracle (keywords001 query) all0
  let all2 := dedupById (fun r => r.id) all1
  let all3 := if 0 < all2.length then rerankWithAI parsed (all2.take 15) else all2
  all3.take 10

/-! ### part_002: basic semantic pipeline -/

/-- part_002 response shape. -/
structure Response002 where
  status : Nat
  results : List SemRaw
  aiAnswer : Option String
deriving DecidableEq

/-- part_002 request handler on a valid query.  A failed embedding call
degrades to the one-keyword lexical fallback (`fallbackRaw`, scored 0.5, null
answer); a failed vector-search call after a successful embedding returns
HTTP 500; otherwise the raw results are returned with status 200 and `llm` as
the generated answer when results are non-empty. -/
def response002 (embedOk : Bool) (searchOutcome : Option (List SemRaw))
    (fallbackRaw : List KwRaw) (llm : Option String) : Response002 :=
  if embedOk then
    match searchOutcome with
    | none => { status := 500, results := [], aiAnswer := none }
    | some results =>
        { status := 200, results := results,
          aiAnswer := if 0 < results.length then llm else none }
  else
    { status := 200
      results := fallbackRaw.map
        (fun k => { id := k.id, case_id := k.case_id, chunk_text := k.chunk_text,
                    similarity := 1/2 })
      aiAnswer := none }

/-! ### part_003: query decomposition and diversity-capped fusion -/

/-- Candidate row of the part_003 route (`SearchResult` with
`matchedQueries`). -/
structure R003 where
  id : Int
  case_id : Int
  chunk_text : String
  similarity : ℚ
  matchedQueries : List String
deriving DecidableEq

/-- Query type produced by the analyzer. -/
inductive QueryType where
  | simple
  | complex
  | factual
deriving DecidableEq

/-- Query analysis record. -/
structure QueryAnalysis where
  originalQuery : String
  subQueries : List String
  keywords : List String
  legalConcepts : List String
  queryType : QueryType
deriving DecidableEq

/-- Fixed curated legal vocabulary of the part_003 fallback analyzer. -/
def legalVocab : List String :=
  ["negligence", "liability", "damages", "breach", "duty", "care", "defendant",
   "plaintiff", "injury", "compensation", "contract", "tort", "defense"]

/-- part_003 analyzeQuery fallback path (model unavailable or output
unparsable).  `queryType` uses `query.split(' ')` on the original query,
modelled by splitting at every single space character. -/
def fallbackAnalyze (query : String) : QueryAnalysis :=
  let words := jsWords query
  let legalTerms := words.filter (fun w => legalVocab.contains w)
  { originalQuery := query
    subQueries := [query]
    keywords := (words.filter (fun w => 4 < w.length)).take 5
    legalConcepts := legalTerms
    queryType :=
      if 8 < (splitCh (fun c => c == ' ') query).length then QueryType.complex
      else QueryType.simple }

/-- Parsed shape of a successful analyzer model response. -/
structure ParsedAnalysis where
  subQueries : List String
  keywords : List String
  legalConcepts : List String
  queryType : QueryType
deriving DecidableEq

/-- part_003 analyzeQuery: a successfully parsed model response wins,
otherwise the fallback. -/
def analyzeQuery (query : String) (modelResponse : Option ParsedAnalysis) :
    QueryAnalysis :=
  match modelResponse with
  | some p =>
      { originalQuery := query, subQueries := p.subQueries,
        keywords := p.keywords, legalConcepts := p.legalConcepts,
        queryType := p.queryType }
  | none => fallbackAnalyze query

/-- part_003 step 2 merge on a repeat id from a sub-query: append the
sub-query to `matchedQueries` and bump the score to min(1, score * 1.15); the
first matching entry is updated. -/
def bumpSub (sq : String) : List R003 → Int → List R003
  | [], _ => []
  | r :: rs, i =>
      if r.id = i then
        { r with matchedQueries := r.matchedQueries ++ [sq],
                 similarity := min 1 (r.similarity * (115/100)) } :: rs
      else r :: bumpSub sq rs i

/-- part_003 step 2: insert one sub-query semantic row or bump a duplicate. -/
def addSub (sq : String) (acc : List R003) (r : SemRaw) : List R003 :=
  if acc.any (fun x => x.id == r.id) then bumpSub sq acc r.id
  else acc ++ [{ id := r.id, case_id := r.case_id, chunk_text := r.chunk_text,
                 similarity := r.similarity, matchedQueries := [sq] }]

/-- part_003 step 3 merge on a repeat id from the keyword search: tag
"keyword" and bump the score to min(1, score * 1.1). -/
def bumpKw003 : List R003 → Int → List R003
  | [], _ => []
  | r :: rs, i =>
      if r.id = i then
        { r with matchedQueries := r.matchedQueries ++ ["keyword"],
                 similarity := min 1 (r.similarity * (11/10)) } :: rs
      else r :: bumpKw003 rs i

/-- part_003 step 3: insert one keyword row (baseline 0.45, assigned by
keywordSearch before the merge) or bump a duplicate. -/
def addKw003 (acc : List R003) (k : KwRaw) : List R003 :=
  if acc.any (fun x => x.id == k.id) then bumpKw003 acc k.id
  else acc ++ [{ id := k.id, case_id := k.case_id, chunk_text := k.chunk_text,
                 similarity := 9/20, matchedQueries := ["keyword"] }]

/-- part_003 step 4 multi-match boost:
`similarity * (1 + (matchedQueries.length || 1) * 0.05)`, not capped. -/
def agreementBoost (r : R003) : R003 :=
  let n := if r.matchedQueries.length = 0 then 1 else r.matchedQueries.length
  { r with similarity := r.similarity * (1 + (n : ℚ) * (5/100)) }

/-- Sort descending by similarity. -/
def sortBySim003 (rs : List R003) : List R003 :=
  rs.mergeSort (fun a b => decide (b.similarity ≤ a.similarity))

/-- diversifyResults walk: emit a candidate while its case has been emitted
fewer than 3 times (`maxPerCase`, a local constant of the source), then stop
as soon as `maxResults` have been emitted; the length test runs after a
possible push, as in the source loop. -/
def divGo (maxResults : Nat) (seen : Int → Nat) (len : Nat) : List R003 → List R003
  | [] => []
  | r :: rs =>
      let caseCount := seen r.case_id
      if caseCount < 3 then
        let seen2 := fun c => if c = r.case_id then caseCount + 1 else seen c
        if maxResults ≤ len + 1 then [r]
        else r :: divGo maxResults seen2 (len + 1) rs
      else
        if maxResults ≤ len then [] else divGo maxResults seen len rs

/-- part_003 diversity-capped selection. -/
def diversifyResults (results : List R003) (maxResults : Nat) : List R003 :=
  divGo maxResults (fun _ => 0) 0 results

/-- part_003 fused pipeline: main-query semantic signal (threshold 0.40),
per-sub-query semantic merges (threshold 0.45), keyword merges when keywords
exist, multi-match boost, sort, diversity-capped top-10.  `semOracle` maps a
query string and threshold to the retrieved rows (`[]` on failure);
`kwResult` is the single keyword-search call's outcome. -/
def pipeline003 (query : String) (analysis : QueryAnalysis)
    (semOracle : String → ℚ → List SemRaw) (kwResult : List KwRaw) : List R003 :=
  let all0 := (semOracle query (2/5)).map
    (fun r => { id := r.id, case_id := r.case_id, chunk_text := r.chunk_text,
                similarity := r.similarity, matchedQueries := ["main"] })
  let all1 := analysis.subQueries.foldl
    (fun acc sq => (semOracle sq (9/20)).foldl (addSub sq) acc) all0
  let all2 := if 0 < analysis.keywords.length then kwResult.foldl addKw003 all1 else all1
  let all3 := all2.map agreementBoost
  diversifyResults (sortBySim003 all3) 10

/-! ### Spec-side definitions used by the claims -/

/-- Keyword derivation claimed for the part_003 fallback analyzer: words
longer than 4 characters minus stop-words (the repository stop-word list),
capped at 5. -/
def claimedFallbackKeywords (query : String) : List String :=
  (((jsWords query).filter (fun w => 4 < w.length)).filter
    (fun w => !(stopwords000.contains w))).take 5

/-- Amended spec-side description of the part_003 fallback analyzer: keywords
are the lower-cased words longer than 4 characters, capped at 5, with no
stop-word subtraction; subQueries is the original query alone; legalConcepts
is fixed-vocabulary membership; queryType is complex exactly when splitting
the original query at single spaces yields more than 8 segments. -/
def specFallbackAnalysis (query : String) : QueryAnalysis :=
  { originalQuery := query
    subQueries := [query]
    keywords := ((jsWords query).filter (fun w => 4 < w.length)).take 5
    legalConcepts := (jsWords query).filter (fun w => legalVocab.contains w)
    queryType :=
      if 8 < (splitCh (fun c => c == ' ') query).length then QueryType.complex
      else QueryType.simple }

/-! ### Sample inputs used by witnesses and counterexamples -/

/-- Sample part_000 candidate with similarity 1/2. -/
def cHalf : R000 :=
  { id := 1, case_id := 1, chunk_text := "t", similarity := 1/2,
    source := Source.semantic }

/-- Sample part_000 candidate whose text contains the keyword "duty". -/
def cDuty : R000 :=
  { id := 1, case_id := 1, chunk_text := "duty of care", similarity := 1/2,
    source := Source.semantic }

/-- Sample part_000 candidate with similarity 1 and keyword-free text. -/
def cOne : R000 :=
  { id := 1, case_id := 1, chunk_text := "abc", similarity := 1,
    source := Source.semantic }

/-- Sample part_001 candidate. -/
def c001 : R001 :=
  { id := 1, case_id := 1, chunk_text := "t", similarity := 1/2,
    source := Source.semantic }

/-- Sample part_003 candidate. -/
def c003 : R003 :=
  { id := 1, case_id := 1, chunk_text := "t", similarity := 1/2,
    matchedQueries := ["main"] }

/-- Sample semantic row with similarity 0.9. -/
def semNine : SemRaw := { id := 1, case_id := 1, chunk_text := "t", similarity := 9/10 }

/-- Sample query analysis with one sub-query and no keywords. -/
def sampleAnalysis : QueryAnalysis :=
  { originalQuery := "q", subQueries := ["s"], keywords := [],
    legalConcepts := [], queryType := QueryType.simple }

/-- Sample semantic oracle: both the main query "q" and the sub-query "s"
retrieve the same row. -/
def sampleOracle : String → ℚ → List SemRaw :=
  fun t _ => if t = "q" then [semNine] else if t = "s" then [semNine] else []

/-- Sample semantic row with similarity 1/2. -/
def semHalf : SemRaw := { id := 1, case_id := 1, chunk_text := "t", similarity := 1/2 }

/-- Expected boosted form of `semHalf` after a keyword-free part_000 run. -/
def boostedHalf : R000 :=
  { id := 1, case_id := 1, chunk_text := "t",
    similarity := min (99/100) ((1/2) * 1), source := Source.semantic,
    keywordMatches := 0 }

/-! ### Helper lemmas -/

/-- Sorting with the descending comparator on a rational key yields a list
that is pairwise descending in that key. -/
theorem pairwise_mergeSort_key {α : Type} (f : α → ℚ) (l : List α) :
    (l.mergeSort (fun a b => decide (f b ≤ f a))).Pairwise (fun a b => f b ≤ f a) := by
  have h := @List.sorted_mergeSort α (fun a b => decide (f b ≤ f a))
    (fun a b c hab hbc =>
      decide_eq_true (le_trans (of_decide_eq_true hbc) (of_decide_eq_true hab)))
    (fun a b => by rcases le_total (f a) (f b) with h | h <;> simp [h]) l
  exact h.imp (fun hab => of_decide_eq_true hab)

/-- Elements of the dedup output come from the input. -/
theorem mem_dedupGo {α : Type} (key : α → Int) :
    ∀ (l : List α) (seen : List Int) (x : α), x ∈ dedupGo key seen l → x ∈ l := by
  intro l
  induction l with
  | nil => intro seen x hx; simp [dedupGo] at hx
  | cons r rs ih =>
      intro seen x hx
      rw [dedupGo] at hx
      by_cases hk : key r ∈ seen
      · rw [if_pos hk] at hx
        exact List.mem_cons_of_mem r (ih seen x hx)
      · rw [if_neg hk] at hx
        rcases List.mem_cons.mp hx with h | h
        · exact h ▸ List.mem_cons_self r rs
        · exact List.mem_cons_of_mem r (ih _ x h)

/-- The dedup output has pairwise-distinct keys, none of them in the
seen-set. -/
theorem dedupGo_nodup {α : Type} (key : α → Int) :
    ∀ (l : List α) (seen : List Int),
      ((dedupGo key seen l).map key).Nodup ∧
      ∀ x ∈ dedupGo key seen l, key x ∉ seen := by
  intro l
  induction l with
  | nil => intro seen; simp [dedupGo]
  | cons r rs ih =>
      intro seen
      rw [dedupGo]
      by_cases hk : key r ∈ seen
      · rw [if_pos hk]; exact ih seen
      · rw [if_neg hk]
        obtain ⟨hnd, hmem⟩ := ih (key r :: seen)
        refine ⟨?_, ?_⟩
        · rw [List.map_cons, List.nodup_cons]
          refine ⟨?_, hnd⟩
          intro hcon
          obtain ⟨x, hx, hxe⟩ := List.mem_map.mp hcon
          exact hmem x hx (hxe ▸ List.mem_cons_self _ _)
        · intro x hx
          rcases List.mem_cons.mp hx with h | h
          · exact h ▸ hk
          · intro hseen
            exact hmem x h (List.mem_cons_of_mem _ hseen)

/-- The dedup output keys are distinct. -/
theorem dedupById_nodup {α : Type} (key : α → Int) (l : List α) :
    ((dedupById key l).map key).Nodup :=
  (dedupGo_nodup key l []).1

/-- When a key occurs in the input and is not yet seen, dedup keeps exactly
the first entry carrying it. -/
theorem dedup_find {α : Type} (key : α → Int) (n : Int) :
    ∀ (l : List α) (seen : List Int), n ∉ seen → (∃ x ∈ l, key x = n) →
      ∃ r, l.find? (fun x => key x == n) = some r ∧ r ∈ dedupGo key seen l := by
  intro l
  induction l with
  | nil => intro seen _ hex; simp at hex
  | cons a t ih =>
      intro seen hn hex
      rw [dedupGo]
      by_cases ha : key a = n
      · refine ⟨a, ?_, ?_⟩
        · simp [List.find?_cons, ha]
        · rw [if_neg (ha ▸ hn)]
          exact List.mem_cons_self _ _
      · have hfind : (a :: t).find? (fun x => key x == n) = t.find? (fun x => key x == n) := by
          simp [List.find?_cons, ha]
        have hex' : ∃ x ∈ t, key x = n := by
          obtain ⟨x, hx, hxe⟩ := hex
          rcases List.mem_cons.mp hx with h | h
          · exact absurd (h ▸ hxe) ha
          · exact ⟨x, h, hxe⟩
        by_cases hk : key a ∈ seen
        · rw [if_pos hk]
          obtain ⟨r, hr, hrm⟩ := ih seen hn hex'
          exact ⟨r, hfind ▸ hr, hrm⟩
        · rw [if_neg hk]
          have hn' : n ∉ key a :: seen := by
            intro hcon
            rcases List.mem_cons.mp hcon with h | h
            · exact ha h.symm
            · exact hn h
          obtain ⟨r, hr, hrm⟩ := ih (key a :: seen) hn' hex'
          exact ⟨r, hfind ▸ hr, List.mem_cons_of_mem _ hrm⟩

/-- In a pairwise-descending list, the first entry satisfying a predicate has
the greatest key among all entries satisfying it. -/
theorem find_first_ge {α : Type} (f : α → ℚ) (p : α → Bool) :
    ∀ (l : List α), l.Pairwise (fun a b => f b ≤ f a) →
      ∀ r, l.find? p = some r → ∀ s ∈ l, p s = true → f s ≤ f r := by
  intro l
  induction l with
  | nil => intro _ r hr; simp at hr
  | cons a t ih =>
      intro hp r hr s hs hps
      obtain ⟨hhead, htail⟩ := List.pairwise_cons.mp hp
      by_cases hpa : p a = true
      · have hra : a = r := by simpa [List.find?_cons, hpa] using hr
        rcases List.mem_cons.mp hs with h | h
        · exact le_of_eq (by rw [h, ← hra])
        · exact hra ▸ hhead s h
      · have hr' : t.find? p = some r := by
          simpa [List.find?_cons, hpa] using hr
        rcases List.mem_cons.mp hs with h | h
        · exact absurd (h ▸ hps) hpa
        · exact ih htail r hr' s h hps

/-- The diversify walk never emits more than its remaining budget. -/
theorem divGo_length (maxResults : Nat) :
    ∀ (l : List R003) (seen : Int → Nat) (len : Nat), len < maxResults →
      (divGo maxResults seen len l).length + len ≤ maxResults := by
  intro l
  induction l with
  | nil =>
      intro seen len h
      rw [divGo]
      simp only [List.length_nil]
      omega
  | cons r rs ih =>
      intro seen len h
      rw [divGo]
      by_cases hc : seen r.case_id < 3
      · simp only [hc, if_true]
        by_cases hstop : maxResults ≤ len + 1
        · rw [if_pos hstop]
          simp only [List.length_singleton]
          omega
        · rw [if_neg hstop]
          have hrec := ih (fun c => if c = r.case_id then seen r.case_id + 1 else seen c)
            (len + 1) (by omega)
          simp only [List.length_cons]
          omega
      · simp only [hc, if_false]
        by_cases hstop : maxResults ≤ len
        · omega
        · rw [if_neg hstop]
          exact ih seen len h

/-- The diversify walk emits at most `3 - seen c` candidates of any one
case. -/
theorem divGo_countP (c : Int) (maxResults : Nat) :
    ∀ (l : List R003) (seen : Int → Nat) (len : Nat),
      (divGo maxResults seen len l).countP (fun r => r.case_id == c) ≤ 3 - seen c := by
  intro l
  induction l with
  | nil =>
      intro seen len
      rw [divGo]
      simp
  | cons r rs ih =>
      intro seen len
      rw [divGo]
      by_cases hc : seen r.case_id < 3
      · simp only [hc, if_true]
        by_cases hstop : maxResults ≤ len + 1
        · rw [if_pos hstop]
          by_cases hcc : r.case_id = c
          · subst hcc
            simp only [List.countP_cons, List.countP_nil, beq_self_eq_true, if_true]
            omega
          · have hne : (r.case_id == c) = false := beq_eq_false_iff_ne.mpr hcc
            simp [List.countP_cons, hne]
        · rw [if_neg hstop]
          by_cases hcc : r.case_id = c
          · subst hcc
            have hrec := ih (fun x => if x = r.case_id then seen r.case_id + 1 else seen x)
              (len + 1)
            rw [if_pos rfl] at hrec
            simp only [List.countP_cons, beq_self_eq_true, if_true]
            omega
          · have hrec := ih (fun x => if x = r.case_id then seen r.case_id + 1 else seen x)
              (len + 1)
            rw [if_neg (fun hx => hcc hx.symm)] at hrec
            have hne : (r.case_id == c) = false := beq_eq_false_iff_ne.mpr hcc
            simp only [List.countP_cons, hne]
            simp only [Bool.false_eq_true, if_false]
            omega
      · simp only [hc, if_false]
        by_cases hstop : maxResults ≤ len
        · rw [if_pos hstop]
          simp
        · rw [if_neg hstop]
          exact ih seen len

/-- The diversify walk emits a subsequence of its input. -/
theorem divGo_sublist (maxResults : Nat) :
    ∀ (l : List R003) (seen : Int → Nat) (len : Nat),
      (divGo maxResults seen len l).Sublist l := by
  intro l
  induction l with
  | nil =>
      intro seen len
      rw [divGo]
  | cons r rs ih =>
      intro seen len
      rw [divGo]
      by_cases hc : seen r.case_id < 3
      · simp only [hc, if_true]
        by_cases hstop : maxResults ≤ len + 1
        · rw [if_pos hstop]
          exact (List.nil_sublist rs).cons₂ r
        · rw [if_neg hstop]
          exact (ih _ _).cons₂ r
      · simp only [hc, if_false]
        by_cases hstop : maxResults ≤ len
        · rw [if_pos hstop]
          exact List.nil_sublist _
        · rw [if_neg hstop]
          exact (ih seen len).cons r

/-- A keyword fold over an everywhere-failing oracle leaves the accumulator
unchanged (part_000 shape). -/
theorem foldKw000_none (kwOracle : String → Option (List KwRaw))
    (h : ∀ k, kwOracle k = none) :
    ∀ (l : List String) (acc : List R000),
      l.foldl
        (fun acc kw =>
          match kwOracle kw with
          | none => acc
          | some krs => krs.foldl addKw000 acc) acc = acc := by
  intro l
  induction l with
  | nil => intro acc; rfl
  | cons kw t ih =>
      intro acc
      simp only [List.foldl_cons, h kw]
      exact ih acc

/-- A keyword fold over an everywhere-failing oracle leaves the accumulator
unchanged (part_001 shape). -/
theorem foldKw001_none (kwOracle : String → Option (List KwRaw))
    (h : ∀ k, kwOracle k = none) :
    ∀ (l : List String) (acc : List R001),
      l.foldl
        (fun acc kw =>
          match kwOracle kw with
          | none => acc
          | some krs => krs.foldl addKw001 acc) acc = acc := by
  intro l
  induction l with
  | nil => intro acc; rfl
  | cons kw t ih =>
      intro acc
      simp only [List.foldl_cons, h kw]
      exact ih acc

/-- Attaching relevance scores changes no id. -/
theorem applyScoresFrom_map_id (scores : List Nat) :
    ∀ (rs : List R001) (i : Nat),
      (applyScoresFrom scores i rs).map R001.id = rs.map R001.id := by
  intro rs
  induction rs with
  | nil => intro i; rfl
  | cons r t ih =>
      intro i
      simp only [applyScoresFrom, List.map_cons, ih]
      rfl

/-- The scored version of the candidate at position `j` is a member of the
scored list. -/
theorem scoreOne_mem_applyScoresFrom (scores : List Nat) :
    ∀ (rs : List R001) (j : Nat) (i : Nat) (h : j < rs.length),
      scoreOne scores (i + j) (rs.get ⟨j, h⟩) ∈ applyScoresFrom scores i rs := by
  intro rs
  induction rs with
  | nil => intro j i h; simp at h
  | cons r t ih =>
      intro j i h
      cases j with
      | zero =>
          simp only [List.get, applyScoresFrom, Nat.add_zero]
          exact List.mem_cons_self _ _
      | succ j' =>
          have := ih j' (i + 1) (by simpa using h)
          rw [applyScoresFrom]
          refine List.mem_cons_of_mem _ ?_
          have harith : i + 1 + j' = i + (j' + 1) := by omega
          rw [harith] at this
          exact this

/-- The rerank stage preserves distinctness of ids. -/
theorem rerank_ids_nodup (parsed : Option (List Nat)) (rs : List R001)
    (h : (rs.map R001.id).Nodup) :
    ((rerankWithAI parsed rs).map R001.id).Nodup := by
  cases parsed with
  | none =>
      have hperm : (rs.map R001.id).Perm ((sortBySim001 rs).map R001.id) :=
        ((List.mergeSort_perm rs _).map R001.id).symm
      exact hperm.nodup h
  | some scores =>
      rw [rerankWithAI]
      have h1 : ((applyScores scores rs).map R001.id).Nodup := by
        rw [applyScores, applyScoresFrom_map_id]
        exact h
      have h2 : (((applyScores scores rs).filter
          (fun r => decide (4 ≤ r.relevanceScore.getD 5))).map R001.id).Nodup :=
        ((List.filter_sublist _).map R001.id).nodup h1
      have hperm : (((applyScores scores rs).filter
          (fun r => decide (4 ≤ r.relevanceScore.getD 5))).map R001.id).Perm
          ((sortByCombined ((applyScores scores rs).filter
            (fun r => decide (4 ≤ r.relevanceScore.getD 5)))).map R001.id) :=
        ((List.mergeSort_perm _ _).map R001.id).symm
      exact hperm.nodup h2

/-- Bumping a sub-query duplicate changes no id. -/
theorem bumpSub_map_id (sq : String) :
    ∀ (l : List R003) (i : Int), (bumpSub sq l i).map R003.id = l.map R003.id := by
  intro l
  induction l with
  | nil => intro i; rfl
  | cons r rs ih =>
      intro i
      rw [bumpSub]
      by_cases hr : r.id = i
      · rw [if_pos hr]; rfl
      · rw [if_neg hr]
        simp only [List.map_cons, ih]

/-- Bumping a keyword duplicate changes no id. -/
theorem bumpKw003_map_id :
    ∀ (l : List R003) (i : Int), (bumpKw003 l i).map R003.id = l.map R003.id := by
  intro l
  induction l with
  | nil => intro i; rfl
  | cons r rs ih =>
      intro i
      rw [bumpKw003]
      by_cases hr : r.id = i
      · rw [if_pos hr]; rfl
      · rw [if_neg hr]
        simp only [List.map_cons, ih]

/-- Merging one sub-query row preserves distinctness of ids. -/
theorem addSub_nodup (sq : String) (acc : List R003) (r : SemRaw)
    (h : (acc.map R003.id).Nodup) : ((addSub sq acc r).map R003.id).Nodup := by
  rw [addSub]
  by_cases hany : acc.any (fun x => x.id == r.id) = true
  · rw [if_pos hany, bumpSub_map_id]
    exact h
  · rw [if_neg hany]
    rw [List.map_append]
    rw [List.nodup_append]
    refine ⟨h, by simp, ?_⟩
    intro a ha hb
    simp only [List.map_cons, List.map_nil, List.mem_singleton] at hb
    obtain ⟨x, hx, hxe⟩ := List.mem_map.mp ha
    apply hany
    rw [List.any_eq_true]
    exact ⟨x, hx, beq_iff_eq.mpr (by rw [hxe, hb])⟩

/-- Merging one keyword row preserves distinctness of ids. -/
theorem addKw003_nodup (acc : List R003) (k : KwRaw)
    (h : (acc.map R003.id).Nodup) : ((addKw003 acc k).map R003.id).Nodup := by
  rw [addKw003]
  by_cases hany : acc.any (fun x => x.id == k.id) = true
  · rw [if_pos hany, bumpKw003_map_id]
    exact h
  · rw [if_neg hany]
    rw [List.map_append]
    rw [List.nodup_append]
    refine ⟨h, by simp, ?_⟩
    intro a ha hb
    simp only [List.map_cons, List.map_nil, List.mem_singleton] at hb
    obtain ⟨x, hx, hxe⟩ := List.mem_map.mp ha
    apply hany
    rw [List.any_eq_true]
    exact ⟨x, hx, beq_iff_eq.mpr (by rw [hxe, hb])⟩

/-- Folding sub-query rows preserves distinctness of ids. -/
theorem foldl_addSub_nodup (sq : String) :
    ∀ (l : List SemRaw) (acc : List R003), (acc.map R003.id).Nodup →
      ((l.foldl (addSub sq) acc).map R003.id).Nodup := by
  intro l
  induction l with
  | nil => intro acc h; exact h
  | cons r t ih =>
      intro acc h
      rw [List.foldl_cons]
      exact ih _ (addSub_nodup sq acc r h)

/-- Folding keyword rows preserves distinctness of ids. -/
theorem foldl_addKw003_nodup :
    ∀ (l : List KwRaw) (acc : List R003), (acc.map R003.id).Nodup →
      ((l.foldl addKw003 acc).map R003.id).Nodup := by
  intro l
  induction l with
  | nil => intro acc h; exact h
  | cons r t ih =>
      intro acc h
      rw [List.foldl_cons]
      exact ih _ (addKw003_nodup acc r h)

/-- Folding all sub-query searches preserves distinctness of ids. -/
theorem foldl_subQueries_nodup (semOracle : String → ℚ → List SemRaw) :
    ∀ (sqs : List String) (acc : List R003), (acc.map R003.id).Nodup →
      ((sqs.foldl (fun acc sq => (semOracle sq (9/20)).foldl (addSub sq) acc) acc).map
        R003.id).Nodup := by
  intro sqs
  induction sqs with
  | nil => intro acc h; exact h
  | cons sq t ih =>
      intro acc h
      rw [List.foldl_cons]
      exact ih _ (foldl_addSub_nodup sq _ acc h)

/-- The agreement boost changes no id. -/
theorem agreementBoost_map_id (l : List R003) :
    (l.map agreementBoost).map R003.id = l.map R003.id := by
  rw [List.map_map]
  rfl

/-- Membership characterization of the scored list: every element is the
scored version of some input candidate at its position. -/
theorem mem_applyScoresFrom (scores : List Nat) :
    ∀ (rs : List R001) (i : Nat) (r : R001), r ∈ applyScoresFrom scores i rs →
      ∃ j, ∃ h : j < rs.length, r = scoreOne scores (i + j) (rs.get ⟨j, h⟩) := by
  intro rs
  induction rs with
  | nil => intro i r hr; simp [applyScoresFrom] at hr
  | cons a t ih =>
      intro i r hr
      rw [applyScoresFrom] at hr
      rcases List.mem_cons.mp hr with h | h
      · exact ⟨0, by simp, by simpa using h⟩
      · obtain ⟨j, hj, hje⟩ := ih (i + 1) r h
        refine ⟨j + 1, by simpa using hj, ?_⟩
        have harith : i + (j + 1) = i + 1 + j := by omega
        rw [harith]
        simpa using hje

/-! ### Claims -/

/-- C6: when no well-formed bracketed numeric array could be parsed from the
rerank response (or the call failed), the rerank stage is skipped: it returns
the input candidates sorted by similarity alone, a permutation of the input
(no candidate dropped) that is pairwise descending in similarity. -/
theorem rerank_parse_failure_sorts_input (rs : List R001) :
    (rerankWithAI none rs).Perm rs ∧
    (rerankWithAI none rs).Pairwise (fun a b => b.similarity ≤ a.similarity) := by
  constructor
  · exact List.mergeSort_perm rs _
  · exact pairwise_mergeSort_key R001.similarity rs

/-- C10: part_000 sorts descending by boosted similarity and then keeps the
first occurrence of each id, so the retained entry for any id present in the
input carries the greatest similarity among all entries with that id. -/
theorem dedup_retains_max_similarity (xs : List R000) (n : Int)
    (h : ∃ r ∈ xs, r.id = n) :
    ∃ r ∈ dedupById (fun x => x.id) (sortBySim000 xs),
      r.id = n ∧ ∀ s ∈ xs, s.id = n → s.similarity ≤ r.similarity := by
  have hperm : (sortBySim000 xs).Perm xs := List.mergeSort_perm xs _
  have hy : ∃ x ∈ sortBySim000 xs, x.id = n := by
    obtain ⟨r, hr, hre⟩ := h
    exact ⟨r, hperm.mem_iff.mpr hr, hre⟩
  obtain ⟨r, hfind, hmem⟩ :=
    dedup_find (fun x => x.id) n (sortBySim000 xs) [] (by simp) hy
  have hrid : r.id = n := by
    have hpr := List.find?_some hfind
    simpa using hpr
  refine ⟨r, hmem, hrid, ?_⟩
  intro s hs hsid
  exact find_first_ge R000.similarity (fun x => x.id == n) (sortBySim000 xs)
    (pairwise_mergeSort_key R000.similarity xs) r hfind s
    (hperm.mem_iff.mpr hs) (beq_iff_eq.mpr hsid)

/-- C10 witness at a concrete one-element input. -/
theorem dedup_retains_max_similarity_witness :
    ∃ r ∈ dedupById (fun x => x.id) (sortBySim000 [cHalf]),
      r.id = 1 ∧ ∀ s ∈ [cHalf], s.id = 1 → s.similarity ≤ r.similarity :=
  dedup_retains_max_similarity [cHalf] 1 ⟨cHalf, by simp, rfl⟩

/-- C9: when the parsed score array is shorter than the candidate list, a
candidate beyond its end gets default relevance score 5, at the 4/10 cutoff
or above, so its scored version (similarity boosted by the fixed factor
1 + 5/20) is retained in the rerank output. -/
theorem missing_score_defaults_to_five (scores : List Nat) (rs : List R001) (i : Nat)
    (h1 : scores.length ≤ i) (h2 : i < rs.length) :
    scoreAt scores i = 5 ∧
    (scoreOne scores i (rs.get ⟨i, h2⟩)).relevanceScore = some 5 ∧
    (scoreOne scores i (rs.get ⟨i, h2⟩)).similarity
      = (rs.get ⟨i, h2⟩).similarity * (1 + (5 : ℚ) / 20) ∧
    scoreOne scores i (rs.get ⟨i, h2⟩) ∈ rerankWithAI (some scores) rs := by
  have hs : scoreAt scores i = 5 := List.getD_eq_default _ _ h1
  refine ⟨hs, by simp [scoreOne, hs], by norm_num [scoreOne, hs], ?_⟩
  have hm0 : scoreOne scores i (rs.get ⟨i, h2⟩) ∈ applyScores scores rs := by
    have := scoreOne_mem_applyScoresFrom scores rs i 0 h2
    simpa [applyScores] using this
  have hm1 : scoreOne scores i (rs.get ⟨i, h2⟩) ∈
      (applyScores scores rs).filter (fun r => decide (4 ≤ r.relevanceScore.getD 5)) := by
    rw [List.mem_filter]
    exact ⟨hm0, by simp [scoreOne, hs]⟩
  rw [rerankWithAI]
  exact (List.mergeSort_perm _ _).mem_iff.mpr hm1

/-- C9 witness: empty score array, one candidate. -/
theorem missing_score_defaults_to_five_witness :
    scoreAt [] 0 = 5 ∧
    (scoreOne [] 0 ([c001].get ⟨0, by norm_num⟩)).relevanceScore = some 5 ∧
    (scoreOne [] 0 ([c001].get ⟨0, by norm_num⟩)).similarity
      = ([c001].get ⟨0, by norm_num⟩).similarity * (1 + (5 : ℚ) / 20) ∧
    scoreOne [] 0 ([c001].get ⟨0, by norm_num⟩) ∈ rerankWithAI (some []) [c001] :=
  missing_score_defaults_to_five [] [c001] 0 (by norm_num) (by norm_num)

/-- C3 counterexample: a parsed score array rating the only candidate 0 makes
the rerank stage return the empty list even though its input was non-empty —
there is no fallback to the pre-rerank ranking on an all-filtered outcome. -/
theorem rerank_filters_all_below_cutoff_to_empty :
    rerankWithAI (some [0])
      [{ id := 2, case_id := 2, chunk_text := "u", similarity := 3/4,
         source := Source.semantic }] = [] ∧
    ([{ id := 2, case_id := 2, chunk_text := "u", similarity := 3/4,
        source := Source.semantic }] : List R001) ≠ [] := by
  constructor
  · simp [rerankWithAI, applyScores, applyScoresFrom, scoreOne, scoreAt, sortByCombined]
  · simp

/-- C3 amended: on parse or call failure the rerank stage returns the input
reordered by similarity (same length, nothing dropped); on parse success every
candidate scoring below 4 is dropped with no fallback, so when every candidate
scores below the cutoff the stage returns the empty list. -/
theorem rerank_fallback_and_cutoff :
    (∀ rs : List R001, (rerankWithAI none rs).length = rs.length) ∧
    (∀ (scores : List Nat) (rs : List R001),
      (∀ i, i < rs.length → scoreAt scores i < 4) →
      rerankWithAI (some scores) rs = []) := by
  constructor
  · intro rs
    exact (List.mergeSort_perm rs _).length_eq
  · intro scores rs h
    rw [rerankWithAI]
    have hfil : (applyScores scores rs).filter
        (fun r => decide (4 ≤ r.relevanceScore.getD 5)) = [] := by
      rw [List.filter_eq_nil_iff]
      intro r hr
      obtain ⟨j, hj, rfl⟩ := mem_applyScoresFrom scores rs 0 r hr
      have hlt := h j hj
      simp [scoreOne]
      omega
    rw [hfil]
    simp [sortByCombined]

/-- C3 witness: both conjuncts applied at concrete inputs. -/
theorem rerank_fallback_and_cutoff_witness :
    (rerankWithAI none [c001]).length = [c001].length ∧
    rerankWithAI (some [0]) [c001] = [] :=
  ⟨rerank_fallback_and_cutoff.1 [c001],
   rerank_fallback_and_cutoff.2 [0] [c001]
     (by
        intro i hi
        simp only [List.length_singleton] at hi
        have h0 : i = 0 := by omega
        subst h0
        decide)⟩

/-- C5 counterexample: a candidate with score 1 whose text contains no
keyword does not keep its score unchanged — the unconditional cap still
lowers it to 0.99. -/
theorem keyword_boost_caps_unmatched_high_score :
    matchCount000 ["negligence"] cOne = 0 ∧
    (boostOne000 ["negligence"] cOne).similarity ≠ cOne.similarity := by
  have h : matchCount000 ["negligence"] cOne = 0 := by decide
  refine ⟨h, ?_⟩
  have h2 : (boostOne000 ["negligence"] cOne).similarity
      = min (99/100) (cOne.similarity * 1) := by
    simp only [boostOne000, h]
    norm_num
  have h3 : cOne.similarity = 1 := rfl
  rw [h2, h3]
  norm_num [min_def]

/-- C5 amended: a candidate whose text contains n > 0 keywords gets score
min(0.99, score * (1 + 0.15 n)); a candidate containing no keyword gets score
min(0.99, score), unchanged whenever its score is at most 0.99. -/
theorem keyword_boost_formula :
    (∀ (kws : List String) (r : R000), 0 < matchCount000 kws r →
      (boostOne000 kws r).similarity
        = min (99/100) (r.similarity * (1 + (matchCount000 kws r : ℚ) * (15/100)))) ∧
    (∀ (kws : List String) (r : R000), matchCount000 kws r = 0 → r.similarity ≤ 99/100 →
      (boostOne000 kws r).similarity = r.similarity) := by
  constructor
  · intro kws r h
    simp [boostOne000, if_pos h]
  · intro kws r h h99
    simp [boostOne000, h]
    exact h99

/-- C5 witness: one matched and one unmatched concrete candidate. -/
theorem keyword_boost_formula_witness :
    (boostOne000 ["duty"] cDuty).similarity
      = min (99/100) (cDuty.similarity * (1 + (matchCount000 ["duty"] cDuty : ℚ) * (15/100))) ∧
    (boostOne000 ["zzzz"] cHalf).similarity = cHalf.similarity :=
  ⟨keyword_boost_formula.1 ["duty"] cDuty (by decide),
   keyword_boost_formula.2 ["zzzz"] cHalf (by decide) (by norm_num [cHalf])⟩

/-- C7 counterexample: the fallback analyzer keeps the stop-word "where"
among its keywords — it is in the repository stop-word lists and excluded by
the claimed derivation, yet the code performs no stop-word subtraction.
Moreover a five-word query written with doubled spaces is classified complex,
because the type test counts single-space segments, not words. -/
theorem fallback_keywords_keep_stopword :
    "where" ∈ (fallbackAnalyze "where should courts decide").keywords ∧
    "where" ∈ stopwords000 ∧
    "where" ∈ stopwords001 ∧
    "where" ∉ claimedFallbackKeywords "where should courts decide" ∧
    (fallbackAnalyze "a  b  c  d  e").queryType = QueryType.complex := by
  refine ⟨?_, ?_, ?_, ?_, ?_⟩ <;> decide

/-- C7 amended: the fallback analyzer returns the original query as the only
sub-query, keywords equal to the lower-cased words longer than 4 characters
capped at 5 (no stop-word subtraction), legalConcepts by fixed-vocabulary
membership, and queryType complex exactly when splitting the original query at
single spaces yields more than 8 segments — and it always returns a full
QueryAnalysis value. -/
theorem fallback_analyze_spec (query : String) :
    fallbackAnalyze query = specFallbackAnalysis query ∧
    (fallbackAnalyze query).keywords
      = ((jsWords query).filter (fun w => 4 < w.length)).take 5 ∧
    (fallbackAnalyze query).subQueries = [query] ∧
    (fallbackAnalyze query).legalConcepts
      = (jsWords query).filter (fun w => legalVocab.contains w) ∧
    ((fallbackAnalyze query).queryType = QueryType.complex
      ↔ 8 < (splitCh (fun c => c == ' ') query).length) ∧
    ((fallbackAnalyze query).queryType = QueryType.simple
      ↔ ¬ 8 < (splitCh (fun c => c == ' ') query).length) := by
  refine ⟨rfl, rfl, rfl, rfl, ?_, ?_⟩
  · by_cases h : 8 < (splitCh (fun c => c == ' ') query).length
    · simp [fallbackAnalyze, h]
    · simp [fallbackAnalyze, h]
  · by_cases h : 8 < (splitCh (fun c => c == ' ') query).length
    · simp [fallbackAnalyze, h]
    · simp [fallbackAnalyze, h]

/-- C2 counterexample: with result cap 0 the walk still emits one candidate,
because the stop test runs only after a push; the output length exceeds the
cap. -/
theorem diversify_zero_cap_emits_one :
    (diversifyResults [c003] 0).length = 1 ∧
    ¬ ((diversifyResults [c003] 0).length ≤ 0) := by
  have h : (diversifyResults [c003] 0).length = 1 := by
    simp [diversifyResults, divGo]
  exact ⟨h, by omega⟩

/-- C2 amended: for every input list and result cap K ≥ 1 the diversified
output has length at most K, contains at most 3 candidates of any one case,
and is a subsequence of the input (candidates emitted in sorted order until K
are emitted or the input is exhausted). -/
theorem diversify_caps_and_order (rs : List R003) (K : Nat) (hK : 1 ≤ K) :
    (diversifyResults rs K).length ≤ K ∧
    (∀ c : Int, (diversifyResults rs K).countP (fun r => r.case_id == c) ≤ 3) ∧
    (diversifyResults rs K).Sublist rs := by
  refine ⟨?_, ?_, ?_⟩
  · have := divGo_length K rs (fun _ => 0) 0 (by omega)
    simpa [diversifyResults] using this
  · intro c
    have := divGo_countP c K rs (fun _ => 0) 0
    simpa [diversifyResults] using this
  · exact divGo_sublist K rs _ _

/-- C2 witness: cap 1 on a one-element list. -/
theorem diversify_caps_and_order_witness :
    (diversifyResults [c003] 1).length ≤ 1 :=
  (diversify_caps_and_order [c003] 1 (by norm_num)).1

/-- C4: no two candidates in a fused final list share an id.  The part_000
and part_001 variants enforce this unconditionally through the seen-set dedup
filter; the part_003 variant merges every repeat id during fusion and
preserves uniqueness provided the main semantic call returns id-unique rows
(the data model declares passage ids unique). -/
theorem fused_ids_nodup :
    (∀ (query : String) (semantic : Option (List SemRaw))
        (kwOracle : String → Option (List KwRaw)),
      ((pipeline000 query semantic kwOracle).map R000.id).Nodup) ∧
    (∀ (query : String) (semantic : Option (List SemRaw))
        (kwOracle : String → Option (List KwRaw)) (parsed : Option (List Nat)),
      ((pipeline001 query semantic kwOracle parsed).map R001.id).Nodup) ∧
    (∀ (query : String) (analysis : QueryAnalysis)
        (semOracle : String → ℚ → List SemRaw) (kwResult : List KwRaw),
      ((semOracle query (2/5)).map SemRaw.id).Nodup →
      ((pipeline003 query analysis semOracle kwResult).map R003.id).Nodup) := by
  refine ⟨?_, ?_, ?_⟩
  · intro query semantic kwOracle
    simp only [pipeline000]
    rw [List.map_take]
    exact (List.take_sublist 10 _).nodup (dedupById_nodup _ _)
  · intro query semantic kwOracle parsed
    simp only [pipeline001]
    rw [List.map_take]
    apply (List.take_sublist 10 _).nodup
    by_cases hlen : 0 < (dedupById (fun r => r.id)
        (keywordStep001 kwOracle (keywords001 query)
          (match semantic with | none => [] | some rs => rs.map toSem001))).length
    · rw [if_pos hlen]
      apply rerank_ids_nodup
      rw [List.map_take]
      exact (List.take_sublist 15 _).nodup (dedupById_nodup _ _)
    · rw [if_neg hlen]
      exact dedupById_nodup _ _
  · intro query analysis semOracle kwResult h
    simp only [pipeline003, diversifyResults]
    apply ((divGo_sublist 10 _ _ _).map R003.id).nodup
    apply (((List.mergeSort_perm _ _).map R003.id).symm).nodup
    rw [agreementBoost_map_id]
    have h0 : (((semOracle query (2/5)).map
        (fun r => ({ id := r.id, case_id := r.case_id, chunk_text := r.chunk_text,
                     similarity := r.similarity, matchedQueries := ["main"] } : R003))).map
        R003.id).Nodup := by
      rw [List.map_map]
      exact h
    have hsub := foldl_subQueries_nodup semOracle analysis.subQueries _ h0
    by_cases hkw : 0 < analysis.keywords.length
    · rw [if_pos hkw]
      exact foldl_addKw003_nodup kwResult _ hsub
    · rw [if_neg hkw]
      exact hsub

/-- C4 witness: the part_003 conjunct applied at a concrete input with
id-unique semantic rows. -/
theorem fused_ids_nodup_witness :
    ((pipeline003 "q" sampleAnalysis sampleOracle []).map R003.id).Nodup :=
  fused_ids_nodup.2.2 "q" sampleAnalysis sampleOracle []
    (by simp [sampleOracle, semNine])

/-- C1 counterexample: in the part_003 fusion, a row retrieved by both the
main query and one sub-query ends with final score 11/10 ≥ 1 — the merge cap
is min(1, score * 1.15), not min(0.99, ...), and the closing multi-match
boost is uncapped. -/
theorem fused_score_reaches_eleven_tenths :
    (pipeline003 "q" sampleAnalysis sampleOracle []).map R003.similarity = [11/10] ∧
    ¬ ((11 : ℚ)/10 < 1) := by
  constructor
  · have e1 : sampleOracle "q" (2/5) = [semNine] := by simp [sampleOracle]
    have e2 : sampleOracle "s" (9/20) = [semNine] := by simp [sampleOracle]
    simp only [pipeline003, sampleAnalysis, e1, e2, List.map_cons, List.map_nil,
      List.foldl_cons, List.foldl_nil, List.length_nil]
    simp only [addSub, semNine, List.any_cons, List.any_nil, bumpSub,
      sortBySim003, diversifyResults, List.mergeSort_singleton]
    norm_num
    simp only [agreementBoost, List.length_cons, List.length_nil]
    norm_num [divGo]
  · norm_num

/-- C1 amended (true half): in the part_000 fused pipeline, every candidate
in the final list has score at most 0.99 — the keyword-presence cap bounds
every score strictly below 1.0 in that variant. -/
theorem keyword_boost_caps_final_scores_000 (query : String)
    (semantic : Option (List SemRaw)) (kwOracle : String → Option (List KwRaw))
    (r : R000) (hr : r ∈ pipeline000 query semantic kwOracle) :
    r.similarity ≤ 99/100 := by
  simp only [pipeline000] at hr
  have hr1 := List.mem_of_mem_take hr
  have hr2 := mem_dedupGo (fun x : R000 => x.id) _ _ _ hr1
  have hr3 := (List.mergeSort_perm _ _).mem_iff.mp hr2
  obtain ⟨x, hx, rfl⟩ := List.mem_map.mp hr3
  simp only [boostOne000]
  exact min_le_left _ _

/-- C1 witness: the capped-score bound applied to a concrete member of a
concrete part_000 run. -/
theorem keyword_boost_caps_final_scores_000_witness :
    boostedHalf.similarity ≤ 99/100 :=
  keyword_boost_caps_final_scores_000 "x" (some [semHalf]) (fun _ => none)
    boostedHalf
    (by
      have hkw : keywords000 "x" = [] := by decide
      have hpipe : pipeline000 "x" (some [semHalf]) (fun _ => none) = [boostedHalf] := by
        simp only [pipeline000, hkw, keywordStep000, List.take_nil, List.foldl_nil,
          List.map_cons, List.map_nil, toSem000, semHalf, boostedHalf, boostOne000,
          matchCount000, List.filter_nil, List.length_nil, sortBySim000,
          List.mergeSort_singleton, dedupById, dedupGo, List.not_mem_nil, if_false]
        rw [List.take_of_length_le (by simp)]
        norm_num
      rw [hpipe]
      exact List.mem_singleton.mpr rfl)

/-- C8 counterexample: in the basic part_002 variant a failed vector-search
call after a successful embedding terminates the request with HTTP 500
instead of degrading to the remaining signals. -/
theorem basic_variant_returns_500_on_search_failure :
    (response002 true none [] none).status = 500 ∧
    (response002 true none [] none).status ≠ 200 := by
  constructor
  · rfl
  · decide

/-- C8 amended (true half): in the fused part_000 pipeline, when the semantic
signal fails (or returns nothing) and every keyword search fails, the request
still returns HTTP 200 with empty results and the deterministic guidance
text. -/
theorem all_signals_failed_returns_guidance (query : String)
    (semantic : Option (List SemRaw)) (kwOracle : String → Option (List KwRaw))
    (llm : String)
    (h0 : semantic = none ∨ semantic = some [])
    (h1 : ∀ k, kwOracle k = none) :
    response000 query semantic kwOracle llm =
      { status := 200, results := [],
        aiAnswer := Answer000.guidance (noResultsText000 query) } := by
  have hks : keywordStep000 kwOracle (keywords000 query) [] = ([] : List R000) := by
    rw [keywordStep000]
    exact foldKw000_none kwOracle h1 _ []
  have hpipe : pipeline000 query semantic kwOracle = [] := by
    rcases h0 with h | h <;>
      simp [pipeline000, h, hks, sortBySim000, dedupById, dedupGo, List.mergeSort_nil]
  simp [response000, hpipe]

/-- C8 witness: concrete all-failed signals. -/
theorem all_signals_failed_returns_guidance_witness :
    response000 "negligence" none (fun _ => none) "a" =
      { status := 200, results := [],
        aiAnswer := Answer000.guidance (noResultsText000 "negligence") } :=
  all_signals_failed_returns_guidance "negligence" none (fun _ => none) "a"
    (Or.inl rfl) (fun _ => rfl)
